import Mathlib

/-!
Verification of the storage layer (src/storage.py): a PostgreSQL ratings
loader (PostgresDataLoader) and a MongoDB model-snapshot writer
(MongoDBModelWriter), embedded shallowly as pure functions over explicit
store states.
-/

/-- A stored row of the ratings table, schema ratings(userid, productid,
rating, timestamp). Identifiers are integers, the rating is a numeric
score, the timestamp an opaque totally ordered value modelled by Int. -/
structure Row where
  userid : Int
  productid : Int
  rating : ℚ
  timestamp : Int
  deriving DecidableEq, Repr

/-- A single column value in a query result row. -/
inductive PgValue where
  | vint : Int → PgValue
  | vnum : ℚ → PgValue
  | vts : Int → PgValue
  deriving DecidableEq, Repr

/-- SELECT * expands a stored row to its four column values in schema
order: userid, productid, rating, timestamp. -/
def rowToValues (r : Row) : List PgValue :=
  [PgValue.vint r.userid, PgValue.vint r.productid,
   PgValue.vnum r.rating, PgValue.vts r.timestamp]

/-- The timestamp column (index 3) of a SELECT * result row, when present. -/
def rowTs (vs : List PgValue) : Option Int :=
  match vs.get? 3 with
  | some (PgValue.vts t) => some t
  | _ => none

/-- The Python-level failure conditions relevant to the loader, together
with the spec's distinct EmptyStore condition (which the code never
raises). -/
inductive PyError where
  | typeError
  | indexError
  | attributeError
  | emptyStore
  deriving DecidableEq, Repr

/-- The configuration object handed to the loader: each of the five
recognized options is either present or absent (Python attribute
present/missing). -/
structure Args where
  host : Option String
  port : Option Int
  user : Option String
  password : Option String
  dbname : Option String
  deriving DecidableEq, Repr

/-- The five parameters actually passed to psycopg2.connect. -/
structure ConnParams where
  host : String
  port : Int
  user : String
  password : String
  dbname : String
  deriving DecidableEq, Repr

/-- Python attribute access on the configuration object: AttributeError
when the attribute is absent. -/
def getattrOr {α : Type} (o : Option α) : Except PyError α :=
  match o with
  | some v => Except.ok v
  | none => Except.error PyError.attributeError

namespace PostgresDataLoader

/-- _make_connection: each keyword parameter has a development default
(127.0.0.1, 5432, postgres, postgres, postgres) used exactly when the
caller does not pass that argument (modelled by none). -/
def make_connection (host : Option String) (port : Option Int)
    (user : Option String) (password : Option String)
    (dbname : Option String) : ConnParams :=
  { host := host.getD "127.0.0.1"
    port := port.getD 5432
    user := user.getD "postgres"
    password := password.getD "postgres"
    dbname := dbname.getD "postgres" }

/-- _build_connection: reads args.host, args.port, args.user,
args.password, args.dbname (in that order, each raising AttributeError
if absent) and passes all five explicitly to _make_connection. -/
def build_connection (args : Args) : Except PyError ConnParams := do
  let h ← getattrOr args.host
  let p ← getattrOr args.port
  let u ← getattrOr args.user
  let pw ← getattrOr args.password
  let d ← getattrOr args.dbname
  pure (make_connection (some h) (some p) (some u) (some pw) (some d))

/-- __init__: the connection parameters established at construction. -/
def init (args : Args) : Except PyError ConnParams :=
  build_connection args

/-- fetchall: SELECT * FROM ratings — every stored row, in store order,
each expanded to its full column-value list. -/
def fetchall (table : List Row) : List (List PgValue) :=
  table.map rowToValues

/-- fetchafter: SELECT * FROM ratings WHERE (timestamp > %s) with the
timestamp bound as a query parameter. -/
def fetchafter (table : List Row) (timestamp : Int) : List (List PgValue) :=
  (table.filter (fun r => decide (timestamp < r.timestamp))).map rowToValues

/-- latest_timestamp: SELECT timestamp FROM ratings ORDER BY timestamp
DESC LIMIT 1, then fetchone()[0]. fetchone() yields None on an empty
result set, and subscripting None raises a TypeError. -/
def latest_timestamp (table : List Row) : Except PyError PgValue :=
  let sorted := List.insertionSort (fun a b => b.timestamp ≤ a.timestamp) table
  let rows := (sorted.take 1).map (fun r => [PgValue.vts r.timestamp])
  match rows.head? with
  | none => Except.error PyError.typeError
  | some row =>
    match row.get? 0 with
    | some v => Except.ok v
    | none => Except.error PyError.indexError

end PostgresDataLoader

/-- The argument pair handed to cursor.execute by fetchafter: the SQL
text and the tuple of bound parameters. -/
structure SqlQuery where
  text : String
  params : List Int
  deriving DecidableEq, Repr

/-- The execute call issued by fetchafter: a fixed SQL text with the
timestamp passed only in the parameter tuple. -/
def fetchafterQuery (timestamp : Int) : SqlQuery :=
  { text := "SELECT * FROM ratings WHERE (timestamp > %s);"
    params := [timestamp] }

/-- A metadata record in the models collection:
{id: version, rank: model.rank, created: utcnow}. The creation time is
an opaque instant modelled by Int. -/
structure MetaRecord where
  id : String
  rank : Int
  created : Int
  deriving DecidableEq, Repr

/-- A feature record in the userFactors or productFactors collection:
{model_id: version, id: entity id, features: ordered float list}. -/
structure FactorRecord where
  model_id : String
  id : Int
  features : List ℚ
  deriving DecidableEq, Repr

/-- The state of the three logical MongoDB collections used by the
writer; insert_one appends to the relevant collection. -/
@[ext]
structure MongoDB where
  models : List MetaRecord
  userFactors : List FactorRecord
  productFactors : List FactorRecord
  deriving DecidableEq, Repr

/-- The surface of a Spark MatrixFactorizationModel consumed by write:
its rank and the collected userFeatures() and productFeatures() pair
lists, each pair an entity id with its feature vector. -/
structure ModelSnapshot where
  rank : Int
  userFeatures : List (Int × List ℚ)
  productFeatures : List (Int × List ℚ)
  deriving DecidableEq, Repr

namespace MongoDBModelWriter

/-- write(model, version): insert the metadata record into models, then
one record per collected userFeatures() entry into userFactors, then one
per collected productFeatures() entry into productFactors. The utcnow()
instant is the now argument. -/
def write (db : MongoDB) (model : ModelSnapshot) (version : String)
    (now : Int) : MongoDB :=
  let db1 := { db with models := db.models ++ [⟨version, model.rank, now⟩] }
  let db2 := model.userFeatures.foldl
    (fun d f => { d with userFactors := d.userFactors ++ [⟨version, f.1, f.2⟩] }) db1
  model.productFeatures.foldl
    (fun d f => { d with productFactors := d.productFactors ++ [⟨version, f.1, f.2⟩] }) db2

end MongoDBModelWriter

/-- A single insert_one call of a write, tagged by target collection. -/
inductive InsertEvent where
  | meta : MetaRecord → InsertEvent
  | userFactor : FactorRecord → InsertEvent
  | productFactor : FactorRecord → InsertEvent
  deriving DecidableEq, Repr

/-- Apply one insert to the store. -/
def applyEvent (db : MongoDB) : InsertEvent → MongoDB
  | InsertEvent.meta r => { db with models := db.models ++ [r] }
  | InsertEvent.userFactor r => { db with userFactors := db.userFactors ++ [r] }
  | InsertEvent.productFactor r => { db with productFactors := db.productFactors ++ [r] }

/-- Run a sequence of inserts in order; running a proper prefix is the
state left behind when the call fails right after that prefix (there is
no rollback step). -/
def runEvents (db : MongoDB) (evs : List InsertEvent) : MongoDB :=
  evs.foldl applyEvent db

/-- The ordered trace of insert_one calls issued by one write(model,
version) call: metadata first, then the user-factor inserts in
userFeatures() order, then the product-factor inserts. -/
def writeEvents (model : ModelSnapshot) (version : String) (now : Int) :
    List InsertEvent :=
  InsertEvent.meta ⟨version, model.rank, now⟩
    :: (model.userFeatures.map (fun f => InsertEvent.userFactor ⟨version, f.1, f.2⟩)
        ++ model.productFeatures.map (fun f => InsertEvent.productFactor ⟨version, f.1, f.2⟩))

/-! ### Helper lemmas -/

theorem foldl_userFactors (v : String) (l : List (Int × List ℚ)) (db : MongoDB) :
    l.foldl (fun d f => { d with userFactors := d.userFactors ++ [⟨v, f.1, f.2⟩] }) db
      = { db with userFactors :=
            db.userFactors ++ l.map (fun f => FactorRecord.mk v f.1 f.2) } := by
  induction l generalizing db with
  | nil => simp
  | cons f fs ih =>
    cases db
    simp [List.foldl, ih]

theorem foldl_productFactors (v : String) (l : List (Int × List ℚ)) (db : MongoDB) :
    l.foldl (fun d f => { d with productFactors := d.productFactors ++ [⟨v, f.1, f.2⟩] }) db
      = { db with productFactors :=
            db.productFactors ++ l.map (fun f => FactorRecord.mk v f.1 f.2) } := by
  induction l generalizing db with
  | nil => simp
  | cons f fs ih =>
    cases db
    simp [List.foldl, ih]

theorem write_eq (db : MongoDB) (m : ModelSnapshot) (v : String) (now : Int) :
    MongoDBModelWriter.write db m v now
      = { models := db.models ++ [⟨v, m.rank, now⟩]
          userFactors :=
            db.userFactors ++ m.userFeatures.map (fun f => FactorRecord.mk v f.1 f.2)
          productFactors :=
            db.productFactors ++ m.productFeatures.map (fun f => FactorRecord.mk v f.1 f.2) } := by
  cases db
  simp [MongoDBModelWriter.write, foldl_userFactors, foldl_productFactors]

/-- The metadata record inserted by a meta event, if any. -/
def evMeta : InsertEvent → Option MetaRecord
  | InsertEvent.meta r => some r
  | _ => none

/-- The user-factor record inserted by an event, if any. -/
def evUser : InsertEvent → Option FactorRecord
  | InsertEvent.userFactor r => some r
  | _ => none

/-- The product-factor record inserted by an event, if any. -/
def evProduct : InsertEvent → Option FactorRecord
  | InsertEvent.productFactor r => some r
  | _ => none

theorem runEvents_models (db : MongoDB) (evs : List InsertEvent) :
    (runEvents db evs).models = db.models ++ evs.filterMap evMeta := by
  induction evs generalizing db with
  | nil => simp [runEvents]
  | cons e es ih =>
    cases e <;>
      simp [runEvents, List.foldl, applyEvent, evMeta, List.filterMap_cons] at * <;>
      simp [ih, applyEvent]

theorem runEvents_userFactors (db : MongoDB) (evs : List InsertEvent) :
    (runEvents db evs).userFactors = db.userFactors ++ evs.filterMap evUser := by
  induction evs generalizing db with
  | nil => simp [runEvents]
  | cons e es ih =>
    cases e <;>
      simp [runEvents, List.foldl, applyEvent, evUser, List.filterMap_cons] at * <;>
      simp [ih, applyEvent]

theorem runEvents_productFactors (db : MongoDB) (evs : List InsertEvent) :
    (runEvents db evs).productFactors = db.productFactors ++ evs.filterMap evProduct := by
  induction evs generalizing db with
  | nil => simp [runEvents]
  | cons e es ih =>
    cases e <;>
      simp [runEvents, List.foldl, applyEvent, evProduct, List.filterMap_cons] at * <;>
      simp [ih, applyEvent]

/-! ### Claim theorems -/

/-- Claim C1: for every store state and every timestamp T, fetchafter(T)
returns exactly the rows of fetchall() whose timestamp column is strictly
greater than T — the same tuples, duplicates and order included, so no
duplicates are added and nothing is omitted. -/
theorem fetchafter_eq_filter_fetchall (table : List Row) (T : Int) :
    PostgresDataLoader.fetchafter table T
      = (PostgresDataLoader.fetchall table).filter
          (fun vs => match rowTs vs with
            | some t => decide (T < t)
            | none => false) := by
  unfold PostgresDataLoader.fetchafter PostgresDataLoader.fetchall
  rw [List.filter_map]
  rfl

/-- Claim C3 (code behaviour at the failing input): on a store with zero
ratings, latest_timestamp subscripts the None returned by fetchone() and
so fails with a TypeError; it does not produce the spec's distinct
EmptyStore condition. -/
theorem latest_timestamp_empty_typeError :
    PostgresDataLoader.latest_timestamp [] = Except.error PyError.typeError
      ∧ PostgresDataLoader.latest_timestamp [] ≠ Except.error PyError.emptyStore := by
  constructor
  · rfl
  · intro h
    simp [PostgresDataLoader.latest_timestamp] at h

/-- Claim C5 (code behaviour at the failing input): fetchall issues
SELECT * against the four-column ratings table, so every returned row has
four components (userid, productid, rating, timestamp), not the three of
a Rating tuple. -/
theorem fetchall_rows_have_four_components :
    (PostgresDataLoader.fetchall
        [{ userid := 1, productid := 2, rating := 5, timestamp := 10 }]).map List.length
      = [4] := rfl

/-- Claim C9: fetchafter builds the same fixed SQL text for every
timestamp argument and passes the timestamp only in the bound parameter
tuple; the rows returned are those selected by comparing against that
bound value. -/
theorem fetchafter_uses_bound_parameter (t u : Int) (table : List Row) :
    (fetchafterQuery t).text = "SELECT * FROM ratings WHERE (timestamp > %s);"
      ∧ (fetchafterQuery t).text = (fetchafterQuery u).text
      ∧ (fetchafterQuery t).params = [t]
      ∧ PostgresDataLoader.fetchafter table t
          = (table.filter (fun r => decide (t < r.timestamp))).map rowToValues :=
  ⟨rfl, rfl, rfl, rfl⟩

/-- Claim C2: write(m, v) appends exactly one metadata record
{id: v, rank: m.rank, created: now} to models, exactly one record
{model_id: v, id: entity, features: vector} per userFeatures entry to
userFactors and per productFeatures entry to productFactors, for
|userFeatures| + |productFeatures| new feature records in total. -/
theorem write_creates_records (db : MongoDB) (m : ModelSnapshot) (v : String)
    (now : Int) :
    (MongoDBModelWriter.write db m v now).models = db.models ++ [⟨v, m.rank, now⟩]
      ∧ (MongoDBModelWriter.write db m v now).userFactors
          = db.userFactors ++ m.userFeatures.map (fun f => FactorRecord.mk v f.1 f.2)
      ∧ (MongoDBModelWriter.write db m v now).productFactors
          = db.productFactors ++ m.productFeatures.map (fun f => FactorRecord.mk v f.1 f.2)
      ∧ (MongoDBModelWriter.write db m v now).userFactors.length
            + (MongoDBModelWriter.write db m v now).productFactors.length
          = db.userFactors.length + db.productFactors.length
            + (m.userFeatures.length + m.productFeatures.length) := by
  rw [write_eq]
  refine ⟨rfl, rfl, rfl, ?_⟩
  simp
  omega

/-- Claim C8: the writer performs no version-existence check: writing
twice under the same version succeeds both times and leaves a second
metadata record with the same id, so models ends with two records whose
id is that version. -/
theorem write_no_duplicate_version_check (db : MongoDB) (m1 m2 : ModelSnapshot)
    (v : String) (now1 now2 : Int) :
    (MongoDBModelWriter.write (MongoDBModelWriter.write db m1 v now1) m2 v now2).models
        = db.models ++ [⟨v, m1.rank, now1⟩, ⟨v, m2.rank, now2⟩]
      ∧ ((MongoDBModelWriter.write (MongoDBModelWriter.write db m1 v now1) m2 v now2).models.filter
            (fun r => decide (r.id = v))).length
          = (db.models.filter (fun r => decide (r.id = v))).length + 2 := by
  rw [write_eq, write_eq]
  constructor
  · simp
  · simp [List.filter_append]

/-- Claim C6 counterexample: constructing the loader from a configuration
object that omits host fails with an AttributeError; the development
default 127.0.0.1 is not substituted for the omitted option. -/
theorem init_missing_host_no_default :
    PostgresDataLoader.init
        { host := none, port := some 5432, user := some "u",
          password := some "p", dbname := some "d" }
      = Except.error PyError.attributeError
      ∧ PostgresDataLoader.init
          { host := none, port := some 5432, user := some "u",
            password := some "p", dbname := some "d" }
        ≠ Except.ok { host := "127.0.0.1", port := 5432, user := "u",
                      password := "p", dbname := "d" } := by
  constructor
  · rfl
  · intro h
    simp [PostgresDataLoader.init, PostgresDataLoader.build_connection, getattrOr,
      Bind.bind, Except.bind] at h

/-- Claim C6 (amended): the development defaults exist only as
_make_connection's keyword defaults; _build_connection passes all five
options from the configuration object explicitly, so supplied options map
directly to the connection parameters, while an omitted option makes
construction fail with an AttributeError rather than being defaulted. -/
theorem init_requires_all_options (args : Args) :
    (∀ h p u pw d, args = ⟨some h, some p, some u, some pw, some d⟩ →
        PostgresDataLoader.init args = Except.ok ⟨h, p, u, pw, d⟩)
      ∧ ((args.host = none ∨ args.port = none ∨ args.user = none
            ∨ args.password = none ∨ args.dbname = none) →
          PostgresDataLoader.init args = Except.error PyError.attributeError)
      ∧ PostgresDataLoader.make_connection none none none none none
          = ⟨"127.0.0.1", 5432, "postgres", "postgres", "postgres"⟩ := by
  obtain ⟨h0, p0, u0, pw0, d0⟩ := args
  refine ⟨?_, ?_, rfl⟩
  · rintro h p u pw d heq
    cases heq
    rfl
  · intro hor
    rcases h0 with _ | h0 <;> rcases p0 with _ | p0 <;> rcases u0 with _ | u0 <;>
      rcases pw0 with _ | pw0 <;> rcases d0 with _ | d0 <;>
      first
        | rfl
        | simp at hor

/-- Witness for the amended Claim C6: an all-supplied configuration maps
directly, and one with host omitted fails with an AttributeError. -/
theorem init_requires_all_options_witness :
    PostgresDataLoader.init
        { host := some "db.example", port := some 6000, user := some "alice",
          password := some "secret", dbname := some "ratings" }
      = Except.ok { host := "db.example", port := 6000, user := "alice",
                    password := "secret", dbname := "ratings" }
      ∧ PostgresDataLoader.init
          { host := none, port := some 6000, user := some "alice",
            password := some "secret", dbname := some "ratings" }
        = Except.error PyError.attributeError :=
  ⟨(init_requires_all_options _).1 "db.example" 6000 "alice" "secret" "ratings" rfl,
   (init_requires_all_options _).2.1 (Or.inl rfl)⟩

/-- Claim C10: writes under distinct versions v1 and v2 create feature
records tagged with their own version only, so the created record sets
are disjoint by model_id, and a later write under v2 leaves every record
of the previously written v1 (metadata and features, as returned by a
query filtering on v1) unchanged. -/
theorem write_disjoint_versions (db : MongoDB) (m1 m2 : ModelSnapshot)
    (v1 v2 : String) (now1 now2 : Int) (hne : v1 ≠ v2) :
    (∀ r ∈ m1.userFeatures.map (fun f => FactorRecord.mk v1 f.1 f.2)
            ++ m1.productFeatures.map (fun f => FactorRecord.mk v1 f.1 f.2),
        r.model_id = v1)
      ∧ (∀ r ∈ m2.userFeatures.map (fun f => FactorRecord.mk v2 f.1 f.2)
              ++ m2.productFeatures.map (fun f => FactorRecord.mk v2 f.1 f.2),
          r.model_id = v2)
      ∧ (∀ r ∈ m1.userFeatures.map (fun f => FactorRecord.mk v1 f.1 f.2)
              ++ m1.productFeatures.map (fun f => FactorRecord.mk v1 f.1 f.2),
          r ∉ m2.userFeatures.map (fun f => FactorRecord.mk v2 f.1 f.2)
              ++ m2.productFeatures.map (fun f => FactorRecord.mk v2 f.1 f.2))
      ∧ ((MongoDBModelWriter.write (MongoDBModelWriter.write db m1 v1 now1) m2 v2 now2).userFactors.filter
            (fun r => decide (r.model_id = v1))
          = (MongoDBModelWriter.write db m1 v1 now1).userFactors.filter
              (fun r => decide (r.model_id = v1)))
      ∧ ((MongoDBModelWriter.write (MongoDBModelWriter.write db m1 v1 now1) m2 v2 now2).productFactors.filter
            (fun r => decide (r.model_id = v1))
          = (MongoDBModelWriter.write db m1 v1 now1).productFactors.filter
              (fun r => decide (r.model_id = v1)))
      ∧ ((MongoDBModelWriter.write (MongoDBModelWriter.write db m1 v1 now1) m2 v2 now2).models.filter
            (fun r => decide (r.id = v1))
          = (MongoDBModelWriter.write db m1 v1 now1).models.filter
              (fun r => decide (r.id = v1))) := by
  have hmem1 : ∀ r ∈ m1.userFeatures.map (fun f => FactorRecord.mk v1 f.1 f.2)
      ++ m1.productFeatures.map (fun f => FactorRecord.mk v1 f.1 f.2),
      r.model_id = v1 := by
    intro r hr
    rcases List.mem_append.mp hr with h1 | h1 <;>
      obtain ⟨f, _, rfl⟩ := List.mem_map.mp h1 <;> rfl
  have hmem2 : ∀ r ∈ m2.userFeatures.map (fun f => FactorRecord.mk v2 f.1 f.2)
      ++ m2.productFeatures.map (fun f => FactorRecord.mk v2 f.1 f.2),
      r.model_id = v2 := by
    intro r hr
    rcases List.mem_append.mp hr with h1 | h1 <;>
      obtain ⟨f, _, rfl⟩ := List.mem_map.mp h1 <;> rfl
  have hne2 : v2 ≠ v1 := Ne.symm hne
  refine ⟨hmem1, hmem2, ?_, ?_, ?_, ?_⟩
  · intro r hr hr2
    exact hne ((hmem1 r hr).symm.trans (hmem2 r hr2))
  · rw [write_eq, write_eq]
    simp [List.filter_append, List.filter_map, Function.comp, hne2]
  · rw [write_eq, write_eq]
    simp [List.filter_append, List.filter_map, Function.comp, hne2]
  · rw [write_eq, write_eq]
    simp [List.filter_append, hne2]

/-- Witness for Claim C10 at concrete snapshots written under versions
v1 and v2. -/
theorem write_disjoint_versions_witness :
    (MongoDBModelWriter.write
        (MongoDBModelWriter.write ⟨[], [], []⟩ ⟨2, [(1, [1, 2])], [(7, [3, 4])]⟩ "v1" 10)
        ⟨3, [(1, [5])], [(8, [6])]⟩ "v2" 20).userFactors.filter
        (fun r => decide (r.model_id = "v1"))
      = (MongoDBModelWriter.write ⟨[], [], []⟩ ⟨2, [(1, [1, 2])], [(7, [3, 4])]⟩ "v1" 10).userFactors.filter
          (fun r => decide (r.model_id = "v1")) :=
  (write_disjoint_versions ⟨[], [], []⟩ ⟨2, [(1, [1, 2])], [(7, [3, 4])]⟩
    ⟨3, [(1, [5])], [(8, [6])]⟩ "v1" "v2" 10 20 (by decide)).2.2.2.1

theorem filterMap_none_of_map {α β γ : Type} (g : α → β) (f : β → Option γ)
    (h : ∀ a, f (g a) = none) (l : List α) : (l.map g).filterMap f = [] := by
  induction l with
  | nil => rfl
  | cons a as ih => simp [h, ih]

theorem filterMap_some_of_map {α β γ : Type} (g : α → β) (f : β → Option γ)
    (e : α → γ) (h : ∀ a, f (g a) = some (e a)) (l : List α) :
    (l.map g).filterMap f = l.map e := by
  induction l with
  | nil => rfl
  | cons a as ih => simp [h, ih]

theorem writeEvents_filterMap_meta (m : ModelSnapshot) (v : String) (now : Int) :
    (writeEvents m v now).filterMap evMeta = [MetaRecord.mk v m.rank now] := by
  unfold writeEvents
  rw [List.filterMap_cons, List.filterMap_append]
  rw [filterMap_none_of_map _ _ (fun a => rfl), filterMap_none_of_map _ _ (fun a => rfl)]
  rfl

theorem writeEvents_filterMap_user (m : ModelSnapshot) (v : String) (now : Int) :
    (writeEvents m v now).filterMap evUser
      = m.userFeatures.map (fun f => FactorRecord.mk v f.1 f.2) := by
  unfold writeEvents
  rw [List.filterMap_cons, List.filterMap_append]
  rw [filterMap_some_of_map (fun f : Int × List ℚ => InsertEvent.userFactor ⟨v, f.1, f.2⟩)
      evUser (fun f => FactorRecord.mk v f.1 f.2) (fun a => rfl),
    filterMap_none_of_map (fun f : Int × List ℚ => InsertEvent.productFactor ⟨v, f.1, f.2⟩)
      evUser (fun a => rfl)]
  simp [evUser]

theorem writeEvents_filterMap_product (m : ModelSnapshot) (v : String) (now : Int) :
    (writeEvents m v now).filterMap evProduct
      = m.productFeatures.map (fun f => FactorRecord.mk v f.1 f.2) := by
  unfold writeEvents
  rw [List.filterMap_cons, List.filterMap_append]
  rw [filterMap_none_of_map (fun f : Int × List ℚ => InsertEvent.userFactor ⟨v, f.1, f.2⟩)
      evProduct (fun a => rfl),
    filterMap_some_of_map (fun f : Int × List ℚ => InsertEvent.productFactor ⟨v, f.1, f.2⟩)
      evProduct (fun f => FactorRecord.mk v f.1 f.2) (fun a => rfl)]
  simp [evProduct]

/-- Claim C7: one write call issues its inserts strictly in the order
metadata record, then all user-factor records, then all product-factor
records: write's effect equals running its insert trace, the trace starts
with the metadata insert followed by the user then product inserts, the
metadata record is already present in every state reached after at least
one insert, and a failure after j inserts leaves every record inserted so
far still present in every later state (no rollback, no cross-collection
atomicity). -/
theorem write_insertion_order (db : MongoDB) (m : ModelSnapshot) (v : String)
    (now : Int) (j k : Nat) (hjk : j ≤ k) :
    MongoDBModelWriter.write db m v now = runEvents db (writeEvents m v now)
      ∧ writeEvents m v now
          = InsertEvent.meta ⟨v, m.rank, now⟩
              :: (m.userFeatures.map (fun f => InsertEvent.userFactor ⟨v, f.1, f.2⟩)
                  ++ m.productFeatures.map (fun f => InsertEvent.productFactor ⟨v, f.1, f.2⟩))
      ∧ (1 ≤ k →
          MetaRecord.mk v m.rank now
            ∈ (runEvents db ((writeEvents m v now).take k)).models)
      ∧ (∀ r ∈ (runEvents db ((writeEvents m v now).take j)).models,
          r ∈ (runEvents db ((writeEvents m v now).take k)).models)
      ∧ (∀ r ∈ (runEvents db ((writeEvents m v now).take j)).userFactors,
          r ∈ (runEvents db ((writeEvents m v now).take k)).userFactors)
      ∧ (∀ r ∈ (runEvents db ((writeEvents m v now).take j)).productFactors,
          r ∈ (runEvents db ((writeEvents m v now).take k)).productFactors) := by
  have hsub : ((writeEvents m v now).take j).Sublist ((writeEvents m v now).take k) := by
    have hjj : (writeEvents m v now).take j = ((writeEvents m v now).take k).take j := by
      rw [List.take_take, Nat.min_eq_left hjk]
    rw [hjj]
    exact List.take_sublist _ _
  refine ⟨?_, rfl, ?_, ?_, ?_, ?_⟩
  · rw [write_eq]
    refine MongoDB.ext ?_ ?_ ?_
    · rw [runEvents_models, writeEvents_filterMap_meta]
    · rw [runEvents_userFactors, writeEvents_filterMap_user]
    · rw [runEvents_productFactors, writeEvents_filterMap_product]
  · intro hk
    rw [runEvents_models]
    rcases k with _ | k0
    · omega
    · rw [show writeEvents m v now
          = InsertEvent.meta ⟨v, m.rank, now⟩
              :: (m.userFeatures.map (fun f => InsertEvent.userFactor ⟨v, f.1, f.2⟩)
                  ++ m.productFeatures.map (fun f => InsertEvent.productFactor ⟨v, f.1, f.2⟩))
          from rfl]
      rw [List.take_succ_cons, List.filterMap_cons]
      simp [evMeta]
  · intro r hr
    rw [runEvents_models] at hr ⊢
    rcases List.mem_append.mp hr with h | h
    · exact List.mem_append.mpr (Or.inl h)
    · exact List.mem_append.mpr (Or.inr ((hsub.filterMap evMeta).subset h))
  · intro r hr
    rw [runEvents_userFactors] at hr ⊢
    rcases List.mem_append.mp hr with h | h
    · exact List.mem_append.mpr (Or.inl h)
    · exact List.mem_append.mpr (Or.inr ((hsub.filterMap evUser).subset h))
  · intro r hr
    rw [runEvents_productFactors] at hr ⊢
    rcases List.mem_append.mp hr with h | h
    · exact List.mem_append.mpr (Or.inl h)
    · exact List.mem_append.mpr (Or.inr ((hsub.filterMap evProduct).subset h))

/-- Witness for Claim C7 at a concrete write failing after one and after
two inserts. -/
theorem write_insertion_order_witness :
    MetaRecord.mk "v1" 2 99
      ∈ (runEvents (⟨[], [], []⟩ : MongoDB)
          ((writeEvents ⟨2, [(1, [1, 2])], [(7, [3])]⟩ "v1" 99).take 2)).models
      ∧ (∀ r ∈ (runEvents (⟨[], [], []⟩ : MongoDB)
            ((writeEvents ⟨2, [(1, [1, 2])], [(7, [3])]⟩ "v1" 99).take 1)).models,
          r ∈ (runEvents (⟨[], [], []⟩ : MongoDB)
            ((writeEvents ⟨2, [(1, [1, 2])], [(7, [3])]⟩ "v1" 99).take 2)).models) :=
  ⟨(write_insertion_order ⟨[], [], []⟩ ⟨2, [(1, [1, 2])], [(7, [3])]⟩ "v1" 99 1 2
      (by decide)).2.2.1 (by decide),
   (write_insertion_order ⟨[], [], []⟩ ⟨2, [(1, [1, 2])], [(7, [3])]⟩ "v1" 99 1 2
      (by decide)).2.2.2.1⟩

instance rowDescTotal : IsTotal Row (fun a b => b.timestamp ≤ a.timestamp) :=
  ⟨fun a b => le_total b.timestamp a.timestamp⟩

instance rowDescTrans : IsTrans Row (fun a b => b.timestamp ≤ a.timestamp) :=
  ⟨fun _ _ _ hab hbc => le_trans hbc hab⟩

theorem insertionSort_desc_head (table : List Row) (x : Row) (rest : List Row)
    (h : List.insertionSort (fun a b => b.timestamp ≤ a.timestamp) table = x :: rest) :
    x ∈ table ∧ ∀ y ∈ table, y.timestamp ≤ x.timestamp := by
  have hperm := List.perm_insertionSort (fun a b => b.timestamp ≤ a.timestamp) table
  rw [h] at hperm
  have hsorted := List.sorted_insertionSort (fun a b => b.timestamp ≤ a.timestamp) table
  rw [h] at hsorted
  constructor
  · exact hperm.mem_iff.mp (List.mem_cons_self x rest)
  · intro y hy
    have hy2 : y ∈ x :: rest := hperm.mem_iff.mpr hy
    rcases List.mem_cons.mp hy2 with rfl | hy3
    · exact le_refl _
    · exact List.rel_of_sorted_cons hsorted y hy3

theorem fetchall_timestamps (table : List Row) :
    (PostgresDataLoader.fetchall table).filterMap rowTs = table.map Row.timestamp := by
  induction table with
  | nil => rfl
  | cons r rs ih =>
    simp only [PostgresDataLoader.fetchall, List.map_cons, List.filterMap_cons] at *
    simp only [show rowTs (rowToValues r) = some r.timestamp from rfl]
    rw [ih]

/-- Claim C4: on a non-empty store latest_timestamp returns the maximum
timestamp across all rows returned by fetchall, and after appending a
rating whose timestamp strictly exceeds every fetched timestamp,
latest_timestamp returns that new timestamp. -/
theorem latest_timestamp_is_max (table : List Row) (hne : table ≠ []) :
    (∃ mx, PostgresDataLoader.latest_timestamp table = Except.ok (PgValue.vts mx)
        ∧ mx ∈ (PostgresDataLoader.fetchall table).filterMap rowTs
        ∧ ∀ t ∈ (PostgresDataLoader.fetchall table).filterMap rowTs, t ≤ mx)
      ∧ ∀ r : Row,
          (∀ t ∈ (PostgresDataLoader.fetchall table).filterMap rowTs, t < r.timestamp) →
          PostgresDataLoader.latest_timestamp (table ++ [r])
            = Except.ok (PgValue.vts r.timestamp) := by
  simp only [fetchall_timestamps]
  constructor
  · cases hsort : List.insertionSort (fun a b => b.timestamp ≤ a.timestamp) table with
    | nil =>
      exfalso
      have hp := List.perm_insertionSort (fun a b => b.timestamp ≤ a.timestamp) table
      rw [hsort] at hp
      exact hne hp.symm.eq_nil
    | cons x rest =>
      obtain ⟨hxmem, hxmax⟩ := insertionSort_desc_head table x rest hsort
      refine ⟨x.timestamp, ?_, ?_, ?_⟩
      · simp [PostgresDataLoader.latest_timestamp, hsort]
      · exact List.mem_map_of_mem Row.timestamp hxmem
      · intro t ht
        obtain ⟨y, hy, rfl⟩ := List.mem_map.mp ht
        exact hxmax y hy
  · intro r hr
    cases hsort : List.insertionSort (fun a b => b.timestamp ≤ a.timestamp) (table ++ [r]) with
    | nil =>
      exfalso
      have hp := List.perm_insertionSort (fun a b => b.timestamp ≤ a.timestamp) (table ++ [r])
      rw [hsort] at hp
      have h0 : table ++ [r] = [] := hp.symm.eq_nil
      simp at h0
    | cons x rest =>
      obtain ⟨hxmem, hxmax⟩ := insertionSort_desc_head (table ++ [r]) x rest hsort
      have hxr : x = r := by
        rcases List.mem_append.mp hxmem with hx | hx
        · exfalso
          have h1 : x.timestamp < r.timestamp :=
            hr x.timestamp (List.mem_map_of_mem Row.timestamp hx)
          have h2 : r.timestamp ≤ x.timestamp :=
            hxmax r (List.mem_append.mpr (Or.inr (List.mem_singleton_self r)))
          omega
        · simpa using hx
      subst hxr
      simp [PostgresDataLoader.latest_timestamp, hsort]

/-- Witness for Claim C4 at a concrete three-row store. -/
theorem latest_timestamp_is_max_witness :
    PostgresDataLoader.latest_timestamp
        ([{ userid := 1, productid := 1, rating := 4, timestamp := 10 },
          { userid := 2, productid := 2, rating := 5, timestamp := 20 }]
          ++ [{ userid := 3, productid := 3, rating := 3, timestamp := 30 }])
      = Except.ok (PgValue.vts 30) :=
  (latest_timestamp_is_max
      [{ userid := 1, productid := 1, rating := 4, timestamp := 10 },
       { userid := 2, productid := 2, rating := 5, timestamp := 20 }]
      (by decide)).2
    { userid := 3, productid := 3, rating := 3, timestamp := 30 } (by decide)
